import Mathlib

/-!
Verification development for the `TanStackTableEditModal` React component
(file `src/my-app/src/components/TanStackTableEditModal.tsx`).

The component is embedded shallowly: its local state becomes a Lean record,
its event handlers and the mount-time loader become pure state transitions
(with `Except Unit` standing for a fetch or JSON-parse step that may throw),
and the two host functions it calls on dates (`Date.parse` and
`Date.toLocaleDateString` with the `en-US` short-month options) are modelled
for ISO-8601 date strings with the runtime time zone taken to be UTC.
-/

namespace Inkel

/-- The `TaxRecord` type of the component: every field but `id` is optional. -/
structure TaxRecord where
  id : String
  name : Option String := none
  gender : Option String := none
  country : Option String := none
  requestDate : Option String := none
  createdAt : Option String := none
  deriving DecidableEq, Repr

/-- The `Country` type: a single `name` field. -/
structure Country where
  name : String
  deriving DecidableEq, Repr

/-! ## Model of the host date functions

`formatDate` in the source calls `Date.parse` and then
`new Date(parsed).toLocaleDateString("en-US", { month: "short",
day: "2-digit", year: "numeric" })`.  These are JavaScript host functions,
modelled here for the ISO-8601 date and date-time forms
(`YYYY[-MM[-DD]][THH:MM[:SS[.sss]]][Z|+hh:mm|-hh:mm]`), with a missing zone
designator and the display time zone both taken to be UTC. -/

/-- Parse exactly `n` decimal digits from the front of `cs`, accumulating into
`acc`; fails if a non-digit or the end of input is hit first. -/
def parseNDigits : Nat → Nat → List Char → Option (Nat × List Char)
  | 0, acc, cs => some (acc, cs)
  | n + 1, acc, c :: cs =>
      if c.isDigit then parseNDigits n (acc * 10 + (c.toNat - 48)) cs else none
  | _ + 1, _, [] => none

/-- Consume one expected character from the front of the input. -/
def expectChar (c : Char) : List Char → Option (List Char)
  | x :: xs => if x = c then some xs else none
  | [] => none

/-- Leap-year test of the proleptic Gregorian calendar. -/
def isLeap (y : Int) : Bool :=
  y.emod 4 == 0 && (y.emod 100 != 0 || y.emod 400 == 0)

/-- Number of days of month `m` (1-based) in year `y`. -/
def daysInMonth (y : Int) (m : Nat) : Nat :=
  match m with
  | 2 => if isLeap y then 29 else 28
  | 4 => 30
  | 6 => 30
  | 9 => 30
  | 11 => 30
  | _ => 31

/-- Days since the Unix epoch of the civil date `(y, m, d)`
(Howard Hinnant days-from-civil algorithm, months 1-based). -/
def daysFromCivil (y : Int) (m d : Nat) : Int :=
  let yA : Int := if m ≤ 2 then y - 1 else y
  let era : Int := yA.ediv 400
  let yoe : Nat := (yA - era * 400).toNat
  let doy : Nat := (153 * (if m > 2 then m - 3 else m + 9) + 2) / 5 + d - 1
  let doe : Nat := yoe * 365 + yoe / 4 - yoe / 100 + doy
  era * 146097 + (doe : Int) - 719468

/-- Civil date `(y, m, d)` of a count of days since the Unix epoch
(Howard Hinnant civil-from-days algorithm, months 1-based). -/
def civilFromDays (z0 : Int) : Int × Nat × Nat :=
  let z : Int := z0 + 719468
  let era : Int := z.ediv 146097
  let doe : Nat := (z - era * 146097).toNat
  let yoe : Nat := (doe - doe / 1460 + doe / 36524 - doe / 146096) / 365
  let y : Int := era * 400 + (yoe : Int)
  let doy : Nat := doe - (365 * yoe + yoe / 4 - yoe / 100)
  let mp : Nat := (5 * doy + 2) / 153
  let d : Nat := doy - (153 * mp + 2) / 5 + 1
  let m : Nat := if mp < 10 then mp + 3 else mp - 9
  (if m ≤ 2 then y + 1 else y, m, d)

/-- Parse the optional `-MM[-DD]` part after the year; an absent month or day
defaults to 1, and anything that is not a dash is left for the time parser. -/
def parseMonthDay (cs : List Char) : Option (Nat × Nat × List Char) :=
  match cs with
  | '-' :: r =>
      match parseNDigits 2 0 r with
      | none => none
      | some (m, r1) =>
          match r1 with
          | '-' :: r2 =>
              match parseNDigits 2 0 r2 with
              | none => none
              | some (d, r3) => some (m, d, r3)
          | _ => some (m, 1, r1)
  | _ => some (1, 1, cs)

/-- Parse the optional `:SS[.sss]` tail of a time; absent parts default to 0. -/
def parseSecondFraction (cs : List Char) : Option (Nat × Nat × List Char) :=
  match cs with
  | ':' :: r =>
      match parseNDigits 2 0 r with
      | none => none
      | some (ss, r1) =>
          if ss > 59 then none
          else
            match r1 with
            | '.' :: r2 =>
                match parseNDigits 3 0 r2 with
                | none => none
                | some (f, r3) => some (ss, f, r3)
            | _ => some (ss, 0, r1)
  | _ => some (0, 0, cs)

/-- Parse the zone designator: nothing (treated as UTC in this model), `Z`,
or a `+hh:mm` / `-hh:mm` offset, returned in minutes. -/
def parseZone (cs : List Char) : Option (Int × List Char) :=
  match cs with
  | [] => some (0, [])
  | 'Z' :: r => some (0, r)
  | '+' :: r =>
      match parseNDigits 2 0 r with
      | none => none
      | some (h, r1) =>
          match expectChar ':' r1 with
          | none => none
          | some r2 =>
              match parseNDigits 2 0 r2 with
              | none => none
              | some (mi, r3) =>
                  if h > 23 || mi > 59 then none
                  else some (((h * 60 + mi : Nat) : Int), r3)
  | '-' :: r =>
      match parseNDigits 2 0 r with
      | none => none
      | some (h, r1) =>
          match expectChar ':' r1 with
          | none => none
          | some r2 =>
              match parseNDigits 2 0 r2 with
              | none => none
              | some (mi, r3) =>
                  if h > 23 || mi > 59 then none
                  else some (-((h * 60 + mi : Nat) : Int), r3)
  | _ => none

/-- Parse the optional `THH:MM[:SS[.sss]]` time part followed by the zone,
returning milliseconds into the day and the zone offset in minutes. -/
def parseTimeOfDay (cs : List Char) : Option (Nat × Int × List Char) :=
  match cs with
  | [] => some (0, 0, [])
  | 'T' :: r =>
      match parseNDigits 2 0 r with
      | none => none
      | some (h, r1) =>
          match expectChar ':' r1 with
          | none => none
          | some r2 =>
              match parseNDigits 2 0 r2 with
              | none => none
              | some (mi, r3) =>
                  match parseSecondFraction r3 with
                  | none => none
                  | some (ss, f, r4) =>
                      if h > 23 || mi > 59 then none
                      else
                        match parseZone r4 with
                        | none => none
                        | some (off, r5) =>
                            some ((h * 3600 + mi * 60 + ss) * 1000 + f, off, r5)
  | _ => none

/-- Model of the JavaScript `Date.parse` host function, restricted to the
ISO-8601 forms above: returns the timestamp in milliseconds since the Unix
epoch, or `none` where `Date.parse` returns `NaN`. -/
def jsDateParse (s : String) : Option Int :=
  match parseNDigits 4 0 s.toList with
  | none => none
  | some (y, cs) =>
      match parseMonthDay cs with
      | none => none
      | some (m, d, cs1) =>
          if m < 1 || m > 12 || d < 1 || d > daysInMonth (y : Int) m then none
          else
            match parseTimeOfDay cs1 with
            | none => none
            | some (msOfDay, offMin, cs2) =>
                if cs2 ≠ [] then none
                else
                  some (daysFromCivil (y : Int) m d * 86400000
                        + (msOfDay : Int) - offMin * 60000)

/-- Short month name used by the `en-US` locale with `month: "short"`. -/
def monthShort (m : Nat) : String :=
  match m with
  | 1 => "Jan" | 2 => "Feb" | 3 => "Mar" | 4 => "Apr"
  | 5 => "May" | 6 => "Jun" | 7 => "Jul" | 8 => "Aug"
  | 9 => "Sep" | 10 => "Oct" | 11 => "Nov" | 12 => "Dec"
  | _ => ""

/-- Two-digit day rendering (`day: "2-digit"`). -/
def pad2 (n : Nat) : String :=
  if n < 10 then "0" ++ toString n else toString n

/-- Model of `new Date(ms).toLocaleDateString("en-US", { month: "short",
day: "2-digit", year: "numeric" })` with the display time zone taken as UTC. -/
def toLocaleDateStringEnUS (ms : Int) : String :=
  let days := ms.ediv 86400000
  match civilFromDays days with
  | (y, m, d) => monthShort m ++ " " ++ pad2 d ++ ", " ++ toString y

/-- The `formatDate` helper of the component (source lines 66 to 75):
an absent or empty date renders as the empty string, an unparsable date
string renders unchanged, and a parsable one renders through the locale
formatter. -/
def formatDate (date : Option String) : String :=
  match date with
  | none => ""
  | some d =>
      if d = "" then ""
      else
        match jsDateParse d with
        | none => d
        | some parsed => toLocaleDateStringEnUS parsed

/-- Model of the JavaScript `String.prototype.toLowerCase` host function,
character by character (ASCII-faithful). -/
def jsToLower (s : String) : String :=
  String.mk (s.data.map Char.toLower)

/-- Does the character list `hay` start with `needle`? -/
def listStartsWith : List Char → List Char → Bool
  | _, [] => true
  | [], _ :: _ => false
  | c :: cs, d :: ds => c = d && listStartsWith cs ds

/-- Does the character list `hay` contain `needle` as a contiguous run? -/
def listContainsSub : List Char → List Char → Bool
  | [], needle => needle.isEmpty
  | hay@(_ :: rest), needle => listStartsWith hay needle || listContainsSub rest needle

/-- Model of the JavaScript `String.prototype.includes` substring test. -/
def jsIncludes (hay needle : String) : Bool :=
  listContainsSub hay.data needle.data

/-! ## Loader normalization (source lines 37 to 64) -/

/-- The JavaScript nullish-coalescing operator `a ?? b` on optional strings:
`b` is used only when `a` is absent (an empty string is not nullish). -/
def jsNullish (a b : Option String) : Option String :=
  match a with
  | some x => some x
  | none => b

/-- The `taxesRaw.slice(-7).map(...)` step of the mount-time loader (source
lines 50 to 53): keep the trailing slice of at most 7 records and overwrite
each `requestDate` with the formatted value of `requestDate ?? createdAt`. -/
def normalizeTaxes (taxesRaw : List TaxRecord) : List TaxRecord :=
  (taxesRaw.drop (taxesRaw.length - 7)).map fun t =>
    { t with requestDate := some (formatDate (jsNullish t.requestDate t.createdAt)) }

/-- The hard-coded patch of the loader (source lines 55 to 57): when the first
record exists and its name lowercases to `"harsh"`, its gender is overwritten
with `"Female"`. -/
def jsHarshOverride (normalized : List TaxRecord) : List TaxRecord :=
  match normalized with
  | [] => []
  | r :: rest =>
      if (match r.name with | some n => jsToLower n == "harsh" | none => false) then
        { r with gender := some "Female" } :: rest
      else r :: rest

/-- The full record pipeline of the loader: trailing slice of 7, date
formatting, then the `"harsh"` gender override, yielding the list passed to
`setData`. -/
def loadTaxes (taxesRaw : List TaxRecord) : List TaxRecord :=
  jsHarshOverride (normalizeTaxes taxesRaw)

/-! ## Component state and event handlers -/

/-- The draft form of the edit modal: two plain strings. -/
structure FormState where
  name : String
  country : String
  deriving DecidableEq, Repr

/-- The local state of the component: one field per `useState` hook.  The
`countryFilter` record object is modelled as an association list in key
insertion order. -/
structure State where
  data : List TaxRecord
  countries : List Country
  loading : Bool
  editing : Option TaxRecord
  form : FormState
  saving : Bool
  filterOpen : Bool
  countryFilter : List (String × Bool)
  searchCountry : String
  modalCountryOpen : Bool
  deriving DecidableEq, Repr

/-- The initial state given by the `useState` initializers. -/
def initialState : State :=
  { data := [], countries := [], loading := true, editing := none,
    form := { name := "", country := "" }, saving := false,
    filterOpen := false, countryFilter := [], searchCountry := "",
    modalCountryOpen := false }

/-- The mount-time effect (source lines 37 to 64).  Each of the two
fetch-and-parse steps is a parameter of type `Except Unit _`: an `error`
covers both a rejected `fetch` and a throwing `.json()` of that step.  The
`try` block has no `catch`, so an exception skips the remaining `set` calls,
and the `finally` clause still clears the loading flag. -/
def runLoader (cres : Except Unit (List Country))
    (tres : Except Unit (List TaxRecord)) (s : State) : State :=
  match cres with
  | .error _ => { s with loading := false }
  | .ok ctrs =>
      let filterMap : List (String × Bool) := ctrs.map (fun c => (c.name, false))
      let s1 := { s with countries := ctrs, countryFilter := filterMap }
      match tres with
      | .error _ => { s1 with loading := false }
      | .ok taxesRaw => { s1 with data := loadTaxes taxesRaw, loading := false }

/-- The list of checked country names, in the order of
`Object.entries(countryFilter)` (source lines 167 to 169). -/
def activeFilters (countryFilter : List (String × Bool)) : List String :=
  (countryFilter.filter fun e => e.2).map fun e => e.1

/-- The `filteredData` function (source lines 166 to 174): with no active
filters the whole list is returned, otherwise a record is kept when
`activeFilters.includes(d.country || "")`. -/
def filteredData (data : List TaxRecord) (countryFilter : List (String × Bool)) :
    List TaxRecord :=
  if (activeFilters countryFilter).length = 0 then data
  else data.filter fun d => (activeFilters countryFilter).contains (d.country.getD "")

/-- Restatement of claim C1 in the words of the spec, to be compared with
`filteredData`: the displayed rows are exactly the records whose country
field equals some checked name, and with nothing checked every row shows. -/
def filteredDataSpec (data : List TaxRecord) (countryFilter : List (String × Bool)) :
    List TaxRecord :=
  if (activeFilters countryFilter).isEmpty then data
  else data.filter fun d => (activeFilters countryFilter).any fun c => d.country == some c

/-- Restatement of claim C2 in the words of the spec, to be compared with
`loadTaxes`: exactly the last 7 entries of the fetched array, each with its
`requestDate` replaced by the formatted value of `requestDate` when present,
otherwise of `createdAt`. -/
def lastSevenDateFormatted (taxesRaw : List TaxRecord) : List TaxRecord :=
  ((taxesRaw.reverse.take 7).reverse).map fun t =>
    { t with requestDate := some (formatDate
        (match t.requestDate with | some d => some d | none => t.createdAt)) }

/-- The `openEdit` handler (source lines 182 to 185): select the row and
pre-fill the draft form with its name and country, defaulting to `""`. -/
def openEdit (row : TaxRecord) (s : State) : State :=
  { s with editing := some row,
           form := { name := row.name.getD "", country := row.country.getD "" } }

/-- The `closeModal` handler (source lines 187 to 190), invoked by the
overlay click, the close button and the Cancel button alike: it clears the
editing slot and the modal country-picker flag and nothing else. -/
def closeModal (s : State) : State :=
  { s with editing := none, modalCountryOpen := false }

/-- The body of the PUT request issued by `handleSave` (source line 196):
the record being edited merged with the draft name and country. -/
def saveRequest (s : State) : Option TaxRecord :=
  s.editing.map fun e =>
    { e with name := some s.form.name, country := some s.form.country }

/-- The `handleSave` handler (source lines 192 to 210).  The `response`
parameter is the parsed JSON of the PUT response; an `error` covers both a
rejected `fetch` and a throwing `res.json()`, in which case execution stops
right after `setSaving(true)` because no handler catches the exception.  On
success the response record has its date reformatted and replaces every
record of matching id, then saving clears and the modal closes. -/
def handleSave (s : State) (response : Except Unit TaxRecord) : State :=
  match s.editing with
  | none => s
  | some _ =>
      let s1 := { s with saving := true }
      match response with
      | .error _ => s1
      | .ok resp =>
          let newDate := some (formatDate (jsNullish resp.requestDate resp.createdAt))
          let updated := { resp with requestDate := newDate }
          let newData := s1.data.map (fun x => if x.id = updated.id then updated else x)
          let s2 := { s1 with data := newData }
          closeModal { s2 with saving := false }

/-! ## Country search lists -/

/-- The option list of the column-header filter popover (source lines 126 to
129): countries whose lowercased name contains the lowercased shared search
text. -/
def popoverCountryOptions (s : State) : List Country :=
  s.countries.filter fun c => jsIncludes (jsToLower c.name) (jsToLower s.searchCountry)

/-- The option list of the edit-modal country dropdown (source lines 283 to
286): countries whose lowercased name contains the lowercased shared search
text. -/
def modalCountryOptions (s : State) : List Country :=
  s.countries.filter fun c => jsIncludes (jsToLower c.name) (jsToLower s.searchCountry)

/-- Typing in either search box: both inputs write the one `searchCountry`
state (source lines 123 and 279). -/
def setSearchCountry (v : String) (s : State) : State :=
  { s with searchCountry := v }

/-! ## Concrete sample data used to instantiate the theorems -/

/-- Sample record with every optional field present. -/
def wRecA : TaxRecord :=
  { id := "1", name := some "Alice", gender := some "female",
    country := some "India", requestDate := some "Nov 02, 2023",
    createdAt := some "2023-11-02T00:00:00Z" }

/-- Sample record without a country. -/
def wRecB : TaxRecord := { id := "2", name := some "Bob" }

/-- Sample country list. -/
def wCountries : List Country :=
  [{ name := "India" }, { name := "Brazil" }, { name := "Norway" }]

/-- Sample loaded state with the India checkbox checked. -/
def wState : State :=
  { initialState with
      data := [wRecA, wRecB], countries := wCountries, loading := false,
      countryFilter := [("India", true), ("Brazil", false), ("Norway", false)] }

/-- Sample state with the edit modal open on `wRecA`. -/
def wEditState : State := { wState with editing := some wRecA }

/-- The record expected in state after saving `wRecA` edited to
`("Neo", "Brazil")`, given a server that echoes the PUT body. -/
def wUpdatedA : TaxRecord :=
  { wRecA with name := some "Neo", country := some "Brazil" }

/-- Sample fetched tax array whose first (and only) record is named
`"Harsh"` with gender `"Male"`. -/
def wHarshRaw : List TaxRecord :=
  [{ id := "9", name := some "Harsh", gender := some "Male",
     createdAt := some "2023-11-02T00:00:00Z" }]

/-- Sample state for the shared-search claim, with search text `"ia"`. -/
def wSearchState : State := { wState with searchCountry := "ia" }

/-! ## Theorems -/

/-- Helper: under the assumption that the empty string is not a checked name,
the membership test of `filteredData` (`activeFilters.includes(d.country ||
"")`) agrees with the spec reading (the country field equals some checked
name). -/
theorem contains_getD_eq_any (F : List String) (o : Option String)
    (hno : "" ∉ F) :
    F.contains (o.getD "") = F.any (fun c => o == some c) := by
  cases o with
  | none =>
      have h2 : F.any (fun c => (none : Option String) == some c) = false := by
        simp
      simp only [Option.getD_none, h2]
      rw [Bool.eq_false_iff]
      intro hc
      exact hno (List.elem_iff.mp hc)
  | some x =>
      simp only [Option.getD_some]
      rw [Bool.eq_iff_iff]
      simp [List.any_eq_true, List.elem_iff]

/-- Claim C1: for every loaded record list and every filter selection, the
rows produced by `filteredData` are exactly the records whose country field
equals some checked name, and with no checked name every record is shown
(stated as agreement with `filteredDataSpec`, assuming no checked country
name is the empty string). -/
theorem claim1_filtered_rows (data : List TaxRecord)
    (cf : List (String × Bool)) (hno : "" ∉ activeFilters cf) :
    filteredData data cf = filteredDataSpec data cf := by
  unfold filteredData filteredDataSpec
  by_cases h : (activeFilters cf).length = 0
  · have he : (activeFilters cf).isEmpty = true := by
      simp [List.isEmpty_iff, List.length_eq_zero.mp h]
    simp [h, he]
  · have he : (activeFilters cf).isEmpty = false := by
      rw [Bool.eq_false_iff]
      intro hc
      exact h (by simp [List.isEmpty_iff.mp hc])
    simp only [h, he, if_neg, if_false, Bool.false_eq_true, ite_false]
    exact List.filter_congr fun d _ => contains_getD_eq_any _ _ hno

/-- Claim C1 witness at a concrete state: India checked, one matching and
one country-less record. -/
theorem claim1_witness :
    ("" ∉ activeFilters wState.countryFilter) ∧
    filteredData wState.data wState.countryFilter =
      filteredDataSpec wState.data wState.countryFilter :=
  ⟨by decide, claim1_filtered_rows wState.data wState.countryFilter (by decide)⟩

/-- Claim C5: `formatDate` maps an absent or empty date to `""`, the sample
parsable date `"2023-11-02T00:00:00Z"` to `"Nov 02, 2023"`, and any
non-empty string that does not parse as a date to itself unchanged. -/
theorem claim5_formatDate :
    formatDate none = "" ∧ formatDate (some "") = "" ∧
    formatDate (some "2023-11-02T00:00:00Z") = "Nov 02, 2023" ∧
    ∀ s : String, s ≠ "" → jsDateParse s = none → formatDate (some s) = s := by
  refine ⟨rfl, by decide, by decide, ?_⟩
  intro s hne hparse
  have hstep : formatDate (some s) =
      (if s = "" then ""
       else match jsDateParse s with
            | none => s
            | some parsed => toLocaleDateStringEnUS parsed) := rfl
  rw [hstep, if_neg hne, hparse]

/-- Claim C5 witness: the unparsable branch at the concrete string
`"hello"`. -/
theorem claim5_witness :
    ("hello" ≠ "" ∧ jsDateParse "hello" = none) ∧
    formatDate (some "hello") = "hello" :=
  ⟨⟨by decide, by decide⟩, claim5_formatDate.2.2.2 "hello" (by decide) (by decide)⟩

/-- Claim C6: `closeModal` (reached from the overlay click, the close button
and Cancel alike) clears only the editing slot and the modal country-picker
flag; the record list and every other piece of state, the draft form
included, are untouched, and no request is issued (the transition is a pure
function of the state). -/
theorem claim6_closeModal_frame (s : State) :
    (closeModal s).editing = none ∧ (closeModal s).modalCountryOpen = false ∧
    (closeModal s).data = s.data ∧ (closeModal s).countries = s.countries ∧
    (closeModal s).loading = s.loading ∧ (closeModal s).form = s.form ∧
    (closeModal s).saving = s.saving ∧
    (closeModal s).filterOpen = s.filterOpen ∧
    (closeModal s).countryFilter = s.countryFilter ∧
    (closeModal s).searchCountry = s.searchCountry :=
  ⟨rfl, rfl, rfl, rfl, rfl, rfl, rfl, rfl, rfl, rfl⟩

/-- Claim C9: the column filter popover and the modal country picker read
the one shared `searchCountry` state, so both show exactly the countries
whose lowercased name contains the lowercased search text, and changing the
search text changes both lists alike. -/
theorem claim9_shared_search (st : State) (v : String) :
    popoverCountryOptions st = modalCountryOptions st ∧
    (∀ c : Country, c ∈ popoverCountryOptions st ↔
        c ∈ st.countries ∧
        jsIncludes (jsToLower c.name) (jsToLower st.searchCountry) = true) ∧
    popoverCountryOptions (setSearchCountry v st) =
      st.countries.filter (fun c => jsIncludes (jsToLower c.name) (jsToLower v)) ∧
    modalCountryOptions (setSearchCountry v st) =
      popoverCountryOptions (setSearchCountry v st) := by
  refine ⟨rfl, ?_, rfl, rfl⟩
  intro c
  simp [popoverCountryOptions, List.mem_filter]

/-- Claim C9 witness: at search text `"ia"` only India is visible, in both
lists. -/
theorem claim9_witness :
    popoverCountryOptions wSearchState = modalCountryOptions wSearchState ∧
    popoverCountryOptions wSearchState = [{ name := "India" }] :=
  ⟨(claim9_shared_search wSearchState "").1, by decide⟩

/-- Helper: the `slice(-7)` and date-formatting step of the loader agrees
with the spec reading `lastSevenDateFormatted` (last 7 entries of the array,
dates formatted preferring `requestDate` over `createdAt`). -/
theorem normalizeTaxes_eq_lastSeven (raw : List TaxRecord) :
    normalizeTaxes raw = lastSevenDateFormatted raw := by
  unfold normalizeTaxes lastSevenDateFormatted
  have hslice : raw.drop (raw.length - 7) = (raw.reverse.take 7).reverse := by
    have h := List.rtake_eq_reverse_take_reverse (l := raw) (n := 7)
    simpa [List.rtake] using h
  have hfun : (fun t : TaxRecord => ({ t with requestDate := some (formatDate (jsNullish t.requestDate t.createdAt)) } : TaxRecord)) = (fun t : TaxRecord => ({ t with requestDate := some (formatDate (match t.requestDate with | some d => some d | none => t.createdAt)) } : TaxRecord)) := by
    funext t
    cases h : t.requestDate <;> simp [jsNullish, h]
  rw [hslice, hfun]

/-- Claim C2 counterexample: on a fetched array whose only record is named
`"Harsh"` with gender `"Male"`, the list stored by the loader differs from
the last-7 date-formatted entries of the source, because the gender is also
overwritten. -/
theorem claim2_counterexample :
    loadTaxes wHarshRaw ≠ lastSevenDateFormatted wHarshRaw := by decide

/-- Claim C2 amended: the record list stored in state is exactly the last 7
entries of the fetched array with `requestDate` replaced by the formatted
value of `requestDate` when present, otherwise of `createdAt` — except that
when the first of those records has a name lowercasing to `"harsh"`, its
gender is additionally overwritten with `"Female"`; no other entries of the
source array are ever held. -/
theorem claim2_amended (raw : List TaxRecord) :
    loadTaxes raw = jsHarshOverride (lastSevenDateFormatted raw) := by
  unfold loadTaxes
  rw [normalizeTaxes_eq_lastSeven]

/-- Claim C4: when the first record of the normalized (last-7,
date-formatted) list has a name lowercasing to `"harsh"`, the loader stores
it with gender forced to `"Female"` whatever the source gender was; a first
record not matching is stored unchanged, and the records in every other
position are never patched. -/
theorem claim4_harsh_patch (raw : List TaxRecord) (r : TaxRecord)
    (rest : List TaxRecord) (h : normalizeTaxes raw = r :: rest) :
    (∀ n, r.name = some n → jsToLower n = "harsh" →
        loadTaxes raw = { r with gender := some "Female" } :: rest) ∧
    ((∀ n, r.name = some n → jsToLower n ≠ "harsh") →
        loadTaxes raw = r :: rest) ∧
    (loadTaxes raw).tail = rest := by
  have hload : loadTaxes raw = jsHarshOverride (r :: rest) := by
    unfold loadTaxes
    rw [h]
  have hcons : jsHarshOverride (r :: rest) =
      if (match r.name with
          | some m => jsToLower m == "harsh" | none => false) = true then
        { r with gender := some "Female" } :: rest
      else r :: rest := rfl
  rw [hload, hcons]
  refine ⟨?_, ?_, ?_⟩
  · intro n hn hl
    have hb : (match r.name with
        | some m => jsToLower m == "harsh" | none => false) = true := by
      rw [hn]
      exact beq_iff_eq.mpr hl
    rw [if_pos hb, hn]
  · intro hnot
    have hb : (match r.name with
        | some m => jsToLower m == "harsh" | none => false) = false := by
      cases hrn : r.name with
      | none => rfl
      | some n =>
          exact beq_eq_false_iff_ne.mpr (hnot n hrn)
      -- the none case reduces by computation once the scrutinee is rewritten
    rw [if_neg (by rw [hb]; exact Bool.false_ne_true)]
  · split <;> rfl

/-- Claim C4 witness: the loader at a one-record array named `"Harsh"` with
gender `"Male"`. -/
theorem claim4_witness :
    (normalizeTaxes wHarshRaw =
      [{ id := "9", name := some "Harsh", gender := some "Male",
         requestDate := some "Nov 02, 2023",
         createdAt := some "2023-11-02T00:00:00Z" }]) ∧
    loadTaxes wHarshRaw =
      [{ id := "9", name := some "Harsh", gender := some "Female",
         requestDate := some "Nov 02, 2023",
         createdAt := some "2023-11-02T00:00:00Z" }] :=
  ⟨by decide,
   (claim4_harsh_patch wHarshRaw
      { id := "9", name := some "Harsh", gender := some "Male",
        requestDate := some "Nov 02, 2023",
        createdAt := some "2023-11-02T00:00:00Z" } [] (by decide)).1
     "Harsh" (by decide) (by decide)⟩

/-- Claim C10: a record whose country field is absent is compared against
the active filters as the empty string, so with at least one checked name
(none of them empty) membership in the displayed rows is governed by
`(country || "") ∈ activeFilters`, and every record without a country is
hidden. -/
theorem claim10_absent_country (data : List TaxRecord)
    (cf : List (String × Bool)) (r : TaxRecord)
    (hne : activeFilters cf ≠ []) (hno : "" ∉ activeFilters cf) :
    (r ∈ filteredData data cf ↔
        r ∈ data ∧ (r.country.getD "") ∈ activeFilters cf) ∧
    (r.country = none → r ∉ filteredData data cf) := by
  have hlen : ¬ (activeFilters cf).length = 0 := by
    simpa [List.length_eq_zero] using hne
  unfold filteredData
  rw [if_neg hlen]
  constructor
  · rw [List.mem_filter]
    exact ⟨fun hm => ⟨hm.1, List.elem_iff.mp hm.2⟩,
           fun hm => ⟨hm.1, List.elem_iff.mpr hm.2⟩⟩
  · intro hc hmem
    have h2 := (List.mem_filter.mp hmem).2
    rw [hc] at h2
    simp only [Option.getD_none] at h2
    exact hno (List.elem_iff.mp h2)

/-- Claim C10 witness: with India checked, the country-less record `wRecB`
is hidden. -/
theorem claim10_witness :
    (activeFilters wState.countryFilter ≠ [] ∧
     "" ∉ activeFilters wState.countryFilter) ∧
    wRecB ∉ filteredData wState.data wState.countryFilter :=
  ⟨⟨by decide, by decide⟩,
   (claim10_absent_country wState.data wState.countryFilter wRecB
      (by decide) (by decide)).2 rfl⟩

/-- Claim C3: opening the edit modal on a record `R` pre-fills the form with
the name and country of `R` (empty string when absent); saving after editing
the form to `(n, c)` issues a PUT whose body is `R` merged with `n` and `c`,
and — with the server echoing that body — every record stored under the id
of `R` afterwards has name `n`, country `c`, and the unchanged id. -/
theorem claim3_edit_save (s0 : State) (R : TaxRecord) (n c : String) :
    let s1 := openEdit R s0
    let s2 := { s1 with form := { name := n, country := c } }
    let body : TaxRecord := { R with name := some n, country := some c }
    let s3 := handleSave s2 (Except.ok body)
    (s1.form.name = R.name.getD "" ∧ s1.form.country = R.country.getD "") ∧
    saveRequest s2 = some body ∧
    ∀ x ∈ s3.data, x.id = R.id →
      x.name = some n ∧ x.country = some c ∧ x.id = R.id := by
  intro s1 s2 body s3
  refine ⟨⟨rfl, rfl⟩, rfl, ?_⟩
  intro x hx hid
  have hdata : s3.data = s0.data.map (fun y => if y.id = R.id then ({ body with requestDate := some (formatDate (jsNullish body.requestDate body.createdAt)) } : TaxRecord) else y) := rfl
  rw [hdata] at hx
  obtain ⟨y, hy, hxy⟩ := List.mem_map.mp hx
  by_cases hyid : y.id = R.id
  · rw [if_pos hyid] at hxy
    exact hxy ▸ ⟨rfl, rfl, rfl⟩
  · rw [if_neg hyid] at hxy
    exact absurd (hxy ▸ hid) hyid

/-- Claim C3 witness: editing `wRecA` to `("Neo", "Brazil")` and saving with
an echoing server stores `wUpdatedA`. -/
theorem claim3_witness :
    wUpdatedA ∈ (handleSave
        { (openEdit wRecA wState) with form := { name := "Neo", country := "Brazil" } }
        (Except.ok { wRecA with name := some "Neo", country := some "Brazil" })).data ∧
    (wUpdatedA.name = some "Neo" ∧ wUpdatedA.country = some "Brazil" ∧
     wUpdatedA.id = "1") :=
  ⟨by decide,
   (claim3_edit_save wState wRecA "Neo" "Brazil").2.2 wUpdatedA (by decide) (by decide)⟩

/-- Claim C7: when the countries step or the taxes step of the mount-time
load fails, the failure is swallowed: the loading flag is still cleared by
the `finally` and the record list stays empty. -/
theorem claim7_load_failure (s : State) (cres : Except Unit (List Country))
    (tres : Except Unit (List TaxRecord)) (hdata : s.data = [])
    (hfail : cres = Except.error () ∨ tres = Except.error ()) :
    (runLoader cres tres s).loading = false ∧ (runLoader cres tres s).data = [] := by
  cases cres with
  | error e => exact ⟨rfl, hdata⟩
  | ok ctrs =>
      cases tres with
      | error e => exact ⟨rfl, hdata⟩
      | ok raw =>
          rcases hfail with hbad | hbad <;> exact absurd hbad (by simp)

/-- Claim C7 witness: a failing countries fetch over the initial state. -/
theorem claim7_witness :
    (runLoader (Except.error ()) (Except.ok wHarshRaw) initialState).loading = false ∧
    (runLoader (Except.error ()) (Except.ok wHarshRaw) initialState).data = [] :=
  claim7_load_failure initialState (Except.error ()) (Except.ok wHarshRaw)
    rfl (Or.inl rfl)

/-- Claim C8: when the PUT of `handleSave` or the parsing of its response
throws, nothing catches it: the saving flag stays true, the editing slot is
not cleared (the modal stays open), and the record list is unchanged. -/
theorem claim8_save_failure (s : State) (R : TaxRecord)
    (h : s.editing = some R) :
    (handleSave s (Except.error ())).saving = true ∧
    (handleSave s (Except.error ())).editing = some R ∧
    (handleSave s (Except.error ())).data = s.data := by
  unfold handleSave
  rw [h]
  exact ⟨rfl, rfl, rfl⟩

/-- Claim C8 witness: a failing save over the state editing `wRecA`. -/
theorem claim8_witness :
    wEditState.editing = some wRecA ∧
    ((handleSave wEditState (Except.error ())).saving = true ∧
     (handleSave wEditState (Except.error ())).editing = some wRecA ∧
     (handleSave wEditState (Except.error ())).data = wEditState.data) :=
  ⟨rfl, claim8_save_failure wEditState wRecA rfl⟩

end Inkel
